import Mathlib

/-!
Shallow embedding of the FormVault secure document storage and validation
pipeline (backend/app/services/file_storage.py, SecureFileStorage), together
with proofs of the behavioural properties stated in the specification.

Bytes are modelled as natural numbers; byte strings as List Nat.  The
upload stream of a candidate is modelled by the list of bytes it would
yield when read from offset 0 (all reads in the source restore the
stream position, so the stream is equivalent to its contents).
-/

set_option maxHeartbeats 4000000
set_option maxRecDepth 100000

namespace FormVault

/-! ## Byte-level helpers (Python bytes operations used by the source) -/

/-- Python bytes.lower(): lowercases ASCII letters byte-wise. -/
def byteLower (b : Nat) : Nat := if 65 ≤ b ∧ b ≤ 90 then b + 32 else b

/-- Byte representation of an ASCII string literal (codepoints). -/
def asciiBytes (s : String) : List Nat := s.data.map Char.toNat

/-- Python bytes.startswith(prefix). -/
def listStartsWith : List Nat → List Nat → Bool
  | _, [] => true
  | [], _ :: _ => false
  | d :: ds, p :: ps => d == p && listStartsWith ds ps

/-- Python `pattern in data` on bytes: contiguous-subsequence test. -/
def bytesContains : List Nat → List Nat → Bool
  | [], pat => pat.isEmpty
  | d :: ds, pat => listStartsWith (d :: ds) pat || bytesContains ds pat

/-! ## pathlib.Path name / suffix / stem -/

/-- Split a character list on a separator (like str.split). -/
def splitChar (sep : Char) : List Char → List (List Char)
  | [] => [[]]
  | c :: rest =>
    match splitChar sep rest with
    | [] => [[]]
    | h :: t => if c = sep then [] :: h :: t else (c :: h) :: t

/-- pathlib path components: empty and "." segments are dropped. -/
def pathComponents (cs : List Char) : List (List Char) :=
  (splitChar '/' cs).filter (fun p => !(p == []) && !(p == ['.']))

/-- pathlib Path(s).name: the final path component. -/
def pathNameL (cs : List Char) : List Char :=
  ((pathComponents cs).getLast?).getD []

/-- Index of the last occurrence of a character (Python str.rfind). -/
def lastIdxOf (cs : List Char) (c : Char) : Option Nat :=
  match cs with
  | [] => none
  | x :: xs =>
    match lastIdxOf xs c with
    | some i => some (i + 1)
    | none => if x = c then some 0 else none

/-- pathlib suffix of a name component: name[i:] for the last dot index i
with 0 < i < len - 1, else empty. -/
def pySuffixL (name : List Char) : List Char :=
  match lastIdxOf name '.' with
  | some i => if 0 < i ∧ i + 1 < name.length then name.drop i else []
  | none => []

/-- pathlib stem of a name component. -/
def pyStemL (name : List Char) : List Char :=
  match lastIdxOf name '.' with
  | some i => if 0 < i ∧ i + 1 < name.length then name.take i else name
  | none => name

/-- Python Path(s).suffix. -/
def pySuffix (s : String) : String := ⟨pySuffixL (pathNameL s.data)⟩

/-- Python Path(s).stem. -/
def pyStem (s : String) : String := ⟨pyStemL (pathNameL s.data)⟩

/-- Python str.lower (ASCII behaviour). -/
def pyLower (s : String) : String := ⟨s.data.map Char.toLower⟩

/-! ## Error taxonomy (backend/app/core/exceptions.py)

One constructor per exception class raised by the storage service, with
the constructor arguments of the Python class. -/

inductive FVError where
  | fileSizeException (max_size actual_size : Nat)
  | fileTypeException (file_type : String) (allowed_types : List String)
  | malwareDetectedException (message : String)
  | fileUploadException (message : String)
  deriving DecidableEq, Repr

/-! ## Settings (backend/app/core/config.py plus the storage fields the
service reads; tests configure STORAGE_TYPE = "local") -/

structure Settings where
  MAX_FILE_SIZE : Nat
  ALLOWED_FILE_TYPES : List String
  STORAGE_TYPE : String
  deriving Repr

def defaultSettings : Settings :=
  { MAX_FILE_SIZE := 5 * 1024 * 1024
    ALLOWED_FILE_TYPES := ["image/jpeg", "image/png", "application/pdf"]
    STORAGE_TYPE := "local" }

/-- FastAPI UploadFile as consumed by the service: declared filename,
declared MIME type, declared size, and the bytes of the stream. -/
structure UploadFile where
  filename : Option String
  content_type : String
  size : Option Nat
  content : List Nat

/-! ## Validator (SecureFileStorage.validate_file and helpers) -/

def allowed_extensions : List String := [".jpg", ".jpeg", ".png", ".pdf"]

def signatures : List (String × List (List Nat)) :=
  [("image/jpeg", [[0xff, 0xd8, 0xff]]),
   ("image/png", [[0x89, 0x50, 0x4e, 0x47, 0x0d, 0x0a, 0x1a, 0x0a]]),
   ("application/pdf", [asciiBytes "%PDF-"])]

def suspicious_patterns : List String :=
  ["<script", "javascript:", "vbscript:", "onload=", "onerror=",
   "<?php", "<%", "exec(", "system(", "shell_exec("]

/-- SecureFileStorage._validate_file_signature. -/
def _validate_file_signature (s : Settings) (header : List Nat)
    (content_type : String) : Except FVError Unit :=
  match signatures.find? (fun e => e.1 == content_type) with
  | some e =>
    if e.2.any (fun sig => listStartsWith header sig) then .ok ()
    else .error (.fileTypeException
      ("File signature doesn't match declared type: " ++ content_type)
      s.ALLOWED_FILE_TYPES)
  | none => .ok ()

/-- SecureFileStorage._scan_for_malware: reads the first 1KB (restoring
the stream position), matches lowercased header bytes against the
suspicious patterns, then checks the magic-number signature. -/
def _scan_for_malware (s : Settings) (f : UploadFile) : Except FVError Unit :=
  match suspicious_patterns.find?
      (fun p => bytesContains ((f.content.take 1024).map byteLower) (asciiBytes p)) with
  | some p => .error (.malwareDetectedException ("Suspicious content detected: " ++ p))
  | none => _validate_file_signature s (f.content.take 1024) f.content_type

/-- Fail-fast sequencing of two validation stages (a Python raise in the
first statement block aborts the rest of the function body). -/
def fvSeq (a b : Except FVError Unit) : Except FVError Unit :=
  match a with
  | .error e => .error e
  | .ok _ => b

/-- Size stage of validate_file: Python
`if file.size and file.size > MAX_FILE_SIZE: raise FileSizeException`;
the check is skipped when the declared size is absent or zero (falsy). -/
def _size_check (s : Settings) (f : UploadFile) : Except FVError Unit :=
  match f.size with
  | some sz =>
    if sz ≠ 0 ∧ sz > s.MAX_FILE_SIZE then
      .error (.fileSizeException s.MAX_FILE_SIZE sz)
    else .ok ()
  | none => .ok ()

/-- MIME allow-list stage of validate_file. -/
def _type_check (s : Settings) (f : UploadFile) : Except FVError Unit :=
  if f.content_type ∈ s.ALLOWED_FILE_TYPES then .ok ()
  else .error (.fileTypeException f.content_type s.ALLOWED_FILE_TYPES)

/-- Extension allow-list stage of validate_file (runs only when the
declared filename is truthy). -/
def _extension_check (f : UploadFile) : Except FVError Unit :=
  match f.filename with
  | some name =>
    if name ≠ "" then
      if pyLower (pySuffix name) ∈ allowed_extensions then .ok ()
      else .error (.fileTypeException (pyLower (pySuffix name)) allowed_extensions)
    else .ok ()
  | none => .ok ()

/-- SecureFileStorage.validate_file: size, MIME allow-list, extension
allow-list, then the malware/signature scan, fail-fast in that order. -/
def validate_file (s : Settings) (f : UploadFile) : Except FVError Unit :=
  fvSeq (_size_check s f)
    (fvSeq (_type_check s f)
      (fvSeq (_extension_check f)
        (_scan_for_malware s f)))

/-! Sanity examples mirroring the repository unit tests. -/

def valid_jpeg_file : UploadFile :=
  { filename := some "test.jpg", content_type := "image/jpeg", size := some 1010,
    content := ([0xff, 0xd8, 0xff, 0xe0, 0x00, 0x10] ++ asciiBytes "JFIF")
      ++ List.replicate 1000 0 }

example : validate_file defaultSettings valid_jpeg_file = .ok () := by rfl

def oversized_file : UploadFile :=
  { filename := some "large.jpg", content_type := "image/jpeg",
    size := some 6291456, content := [0xff, 0xd8, 0xff] }

def malicious_file : UploadFile :=
  { filename := some "malicious.jpg", content_type := "image/jpeg", size := some 47,
    content := ([0xff, 0xd8, 0xff, 0xe0, 0x00, 0x10] ++ asciiBytes "JFIF")
      ++ asciiBytes "<script>alert(1)</script>" }

/-! ## Validator theorems -/

lemma fvSeq_ok (b : Except FVError Unit) : fvSeq (.ok ()) b = b := rfl

lemma fvSeq_error (e : FVError) (b : Except FVError Unit) :
    fvSeq (.error e) b = .error e := rfl

/-- Any error of the MIME stage is a fileTypeException. -/
lemma _type_check_error (s : Settings) (f : UploadFile) (e : FVError)
    (h : _type_check s f = .error e) :
    e = .fileTypeException f.content_type s.ALLOWED_FILE_TYPES := by
  unfold _type_check at h
  split at h <;> simp_all

/-- Any error of the extension stage is a fileTypeException. -/
lemma _extension_check_error (f : UploadFile) (e : FVError)
    (h : _extension_check f = .error e) :
    ∃ t, e = .fileTypeException t allowed_extensions := by
  unfold _extension_check at h
  split at h
  · split at h
    · split at h
      · simp_all
      · exact ⟨_, by injection h with h; exact h.symm⟩
    · simp_all
  · simp_all

/-- Any error of the malware/signature scan is a malwareDetectedException
or a fileTypeException. -/
lemma _scan_error_shape (s : Settings) (f : UploadFile) (e : FVError)
    (h : _scan_for_malware s f = .error e) :
    (∃ msg, e = .malwareDetectedException msg) ∨
    (∃ d, e = .fileTypeException d s.ALLOWED_FILE_TYPES) := by
  unfold _scan_for_malware at h
  split at h
  · left; exact ⟨_, by injection h with h; exact h.symm⟩
  · right
    unfold _validate_file_signature at h
    split at h
    · split at h
      · simp_all
      · exact ⟨_, by injection h with h; exact h.symm⟩
    · simp_all

/-- C6: for every candidate whose declared size exceeds the configured
maximum, validate_file fails with the size error built from the maximum
and the declared size.  The conclusion holds for every content list, so
no content byte is consulted and no later validation stage runs. -/
theorem C6_size_exceeded (s : Settings) (f : UploadFile) (sz : Nat)
    (hsz : f.size = some sz) (hgt : sz > s.MAX_FILE_SIZE) :
    validate_file s f = .error (.fileSizeException s.MAX_FILE_SIZE sz) := by
  have hcond : sz ≠ 0 ∧ sz > s.MAX_FILE_SIZE := ⟨by omega, hgt⟩
  have h1 : _size_check s f = .error (.fileSizeException s.MAX_FILE_SIZE sz) := by
    simp [_size_check, hsz, hcond]
  unfold validate_file
  rw [h1, fvSeq_error]

/-- C6 witness: the oversized 6MB test candidate is rejected with the
size error without its content being read. -/
theorem C6_size_exceeded_witness :
    validate_file defaultSettings oversized_file =
      .error (.fileSizeException 5242880 6291456) :=
  C6_size_exceeded defaultSettings oversized_file 6291456 rfl (by decide)

/-- C10: a candidate whose declared size is absent or zero is never
rejected with a size error, whatever the configured maximum and however
large the content is. -/
theorem C10_no_size_rejection (s : Settings) (f : UploadFile)
    (h : f.size = none ∨ f.size = some 0) (m a : Nat) :
    validate_file s f ≠ .error (.fileSizeException m a) := by
  have h1 : _size_check s f = .ok () := by
    rcases h with h | h <;> simp [_size_check, h]
  unfold validate_file
  rw [h1, fvSeq_ok]
  intro hcon
  rcases htc : _type_check s f with e | u
  · rw [htc, fvSeq_error] at hcon
    injection hcon with hcon
    have := _type_check_error s f e htc
    simp_all
  · rw [htc, fvSeq_ok] at hcon
    rcases hec : _extension_check f with e | u2
    · rw [hec, fvSeq_error] at hcon
      injection hcon with hcon
      obtain ⟨t, ht⟩ := _extension_check_error f e hec
      simp_all
    · rw [hec, fvSeq_ok] at hcon
      rcases _scan_error_shape s f _ hcon with ⟨msg, hm⟩ | ⟨d, hd⟩ <;> simp_all

def none_size_file : UploadFile :=
  { filename := some "big.jpg", content_type := "image/jpeg", size := none,
    content := [0xff, 0xd8, 0xff] }

/-- C10 witness: a candidate with absent declared size is not rejected
with the size error. -/
theorem C10_no_size_rejection_witness :
    validate_file defaultSettings none_size_file ≠
      .error (.fileSizeException 5242880 999) :=
  C10_no_size_rejection defaultSettings none_size_file (Or.inl rfl) 5242880 999

/-- A candidate whose first kilobyte contains the banned pattern
"<script" but whose declared MIME type is outside the allow-list. -/
def evil_typed_file : UploadFile :=
  { filename := some "evil.jpg", content_type := "text/html", size := some 25,
    content := asciiBytes "<script>alert(1)</script>" }

/-- C1 counterexample: this candidate carries a banned pattern in its
first kilobyte, yet validate_file rejects it with the MIME-type error
(constructor fileTypeException), not with malwareDetectedException --
the allow-list stage runs before the content scan. -/
theorem C1_counterexample :
    validate_file defaultSettings evil_typed_file =
      .error (.fileTypeException "text/html"
        ["image/jpeg", "image/png", "application/pdf"]) := by rfl

/-- C1 (amended): for candidates that pass the size, MIME-type and
extension stages, a banned pattern in the lowercased first kilobyte of
content makes validate_file fail with malwareDetectedException for the
first matching pattern; candidates with a disallowed declared type are
instead rejected earlier with fileTypeException. -/
theorem C1_amended_malware_detected (s : Settings) (f : UploadFile) (p : String)
    (hsize : ∀ sz, f.size = some sz → sz = 0 ∨ sz ≤ s.MAX_FILE_SIZE)
    (htype : f.content_type ∈ s.ALLOWED_FILE_TYPES)
    (hext : ∀ name, f.filename = some name → name ≠ "" →
      pyLower (pySuffix name) ∈ allowed_extensions)
    (hfind : suspicious_patterns.find?
      (fun q => bytesContains ((f.content.take 1024).map byteLower) (asciiBytes q))
      = some p) :
    validate_file s f =
      .error (.malwareDetectedException ("Suspicious content detected: " ++ p)) := by
  have h1 : _size_check s f = .ok () := by
    cases hfs : f.size with
    | some sz =>
      have hc : ¬ (sz ≠ 0 ∧ sz > s.MAX_FILE_SIZE) := by
        rcases hsize sz hfs with h | h <;> omega
      simp [_size_check, hfs, hc]
    | none => simp [_size_check, hfs]
  have h2 : _type_check s f = .ok () := by
    unfold _type_check
    rw [if_pos htype]
  have h3 : _extension_check f = .ok () := by
    unfold _extension_check
    cases hfn : f.filename with
    | some name =>
      by_cases hne : name = ""
      · simp [hne]
      · simp [hne, hext name hfn hne]
    | none => rfl
  unfold validate_file
  rw [h1, fvSeq_ok, h2, fvSeq_ok, h3, fvSeq_ok]
  unfold _scan_for_malware
  rw [hfind]

/-- C1 witness for the amended claim: the repository's malicious test
candidate (valid JPEG header followed by a script tag) is rejected with
malwareDetectedException for the pattern "<script". -/
theorem C1_amended_witness :
    validate_file defaultSettings malicious_file =
      .error (.malwareDetectedException "Suspicious content detected: <script") :=
  C1_amended_malware_detected defaultSettings malicious_file "<script"
    (by intro sz h; cases h; right; decide)
    (by decide)
    (by intro name h hne; cases h; decide)
    (by rfl)

/-! ## urlsafe base64 (Python base64.urlsafe_b64encode / urlsafe_b64decode) -/

def b64Alphabet : List Char :=
  "ABCDEFGHIJKLMNOPQRSTUVWXYZabcdefghijklmnopqrstuvwxyz0123456789-_".data

def b64EncChar (n : Nat) : Char := b64Alphabet.getD n 'A'

def b64DecChar (c : Char) : Option Nat := b64Alphabet.indexOf? c

/-- Encode bytes in 3-byte groups, padding the final partial group with
"=" as base64 does. -/
def b64EncodeGroups : List Nat → List Char
  | b1 :: b2 :: b3 :: rest =>
    b64EncChar ((b1 * 65536 + b2 * 256 + b3) / 262144) ::
    b64EncChar ((b1 * 65536 + b2 * 256 + b3) / 4096 % 64) ::
    b64EncChar ((b1 * 65536 + b2 * 256 + b3) / 64 % 64) ::
    b64EncChar ((b1 * 65536 + b2 * 256 + b3) % 64) :: b64EncodeGroups rest
  | [b1, b2] =>
    [b64EncChar ((b1 * 256 + b2) / 1024), b64EncChar ((b1 * 256 + b2) / 16 % 64),
     b64EncChar ((b1 * 256 + b2) % 16 * 4), '=']
  | [b1] => [b64EncChar (b1 / 4), b64EncChar (b1 % 4 * 16), '=', '=']
  | [] => []

def urlsafe_b64encode (bs : List Nat) : String := ⟨b64EncodeGroups bs⟩

/-- Decode a base64 character stream four characters at a time. -/
def b64DecodeQuads : List Char → Option (List Nat)
  | [] => some []
  | c1 :: c2 :: c3 :: c4 :: rest =>
    match b64DecChar c1, b64DecChar c2 with
    | some s1, some s2 =>
      if c3 = '=' then
        if c4 = '=' ∧ rest = [] then some [s1 * 4 + s2 / 16] else none
      else
        match b64DecChar c3 with
        | some s3 =>
          if c4 = '=' then
            if rest = [] then some [s1 * 4 + s2 / 16, s2 % 16 * 16 + s3 / 4] else none
          else
            match b64DecChar c4 with
            | some s4 =>
              match b64DecodeQuads rest with
              | some bs => some ((s1 * 4 + s2 / 16) :: (s2 % 16 * 16 + s3 / 4) ::
                  (s3 % 4 * 64 + s4) :: bs)
              | none => none
            | none => none
        | none => none
    | _, _ => none
  | _ => none

/-- Python's lenient decoder discards characters outside the alphabet and
then fails unless what remains groups into valid quads. -/
def urlsafe_b64decode (s : String) : Option (List Nat) :=
  b64DecodeQuads (s.data.filter (fun c => (b64DecChar c).isSome || c == '='))

lemma b64Alphabet_length : b64Alphabet.length = 64 := by decide

lemma b64DecChar_encChar : ∀ n < 64, b64DecChar (b64EncChar n) = some n := by decide

lemma b64EncChar_of_ge (n : Nat) (h : 64 ≤ n) : b64EncChar n = 'A' := by
  unfold b64EncChar
  exact List.getD_eq_default _ _ (le_trans (le_of_eq b64Alphabet_length) h)

lemma b64DecChar_encChar_isSome (n : Nat) : (b64DecChar (b64EncChar n)).isSome := by
  by_cases h : n < 64
  · rw [b64DecChar_encChar n h]; rfl
  · rw [b64EncChar_of_ge n (by omega)]; decide

lemma b64EncChar_ne_pad (n : Nat) : b64EncChar n ≠ '=' := by
  by_cases h : n < 64
  · revert n
    decide
  · rw [b64EncChar_of_ge n (by omega)]; decide

/-- Every character emitted by the encoder is in the alphabet or "=". -/
lemma b64EncodeGroups_mem (bs : List Nat) :
    ∀ c ∈ b64EncodeGroups bs, (b64DecChar c).isSome ∨ c = '=' := by
  induction bs using b64EncodeGroups.induct with
  | case1 b1 b2 b3 rest ih =>
    intro c hc
    simp only [b64EncodeGroups, List.mem_cons] at hc
    rcases hc with rfl | rfl | rfl | rfl | hc
    · exact Or.inl (b64DecChar_encChar_isSome _)
    · exact Or.inl (b64DecChar_encChar_isSome _)
    · exact Or.inl (b64DecChar_encChar_isSome _)
    · exact Or.inl (b64DecChar_encChar_isSome _)
    · exact ih c hc
  | case2 b1 b2 =>
    intro c hc
    simp only [b64EncodeGroups, List.mem_cons] at hc
    rcases hc with rfl | rfl | rfl | rfl | hc
    · exact Or.inl (b64DecChar_encChar_isSome _)
    · exact Or.inl (b64DecChar_encChar_isSome _)
    · exact Or.inl (b64DecChar_encChar_isSome _)
    · exact Or.inr rfl
    · simp at hc
  | case3 b1 =>
    intro c hc
    simp only [b64EncodeGroups, List.mem_cons] at hc
    rcases hc with rfl | rfl | rfl | rfl | hc
    · exact Or.inl (b64DecChar_encChar_isSome _)
    · exact Or.inl (b64DecChar_encChar_isSome _)
    · exact Or.inr rfl
    · exact Or.inr rfl
    · simp at hc
  | case4 => intro c hc; simp [b64EncodeGroups] at hc

/-- The encoder never emits a dot (needed for the Path.stem analysis). -/
lemma b64EncodeGroups_no_dot (bs : List Nat) :
    ∀ c ∈ b64EncodeGroups bs, c ≠ '.' := by
  intro c hc
  rcases b64EncodeGroups_mem bs c hc with h | h
  · intro hdot; subst hdot; revert h; decide
  · subst h; decide

/-- The encoder never emits a slash. -/
lemma b64EncodeGroups_no_slash (bs : List Nat) :
    ∀ c ∈ b64EncodeGroups bs, c ≠ '/' := by
  intro c hc
  rcases b64EncodeGroups_mem bs c hc with h | h
  · intro hdot; subst hdot; revert h; decide
  · subst h; decide

lemma b64EncodeGroups_ne_nil (bs : List Nat) (h : bs ≠ []) :
    b64EncodeGroups bs ≠ [] := by
  rcases bs with _ | ⟨b1, _ | ⟨b2, _ | ⟨b3, rest⟩⟩⟩ <;> simp [b64EncodeGroups] at h ⊢

lemma b64DecodeQuads_cons (x1 x2 x3 x4 : Nat) (h1 : x1 < 64) (h2 : x2 < 64)
    (h3 : x3 < 64) (h4 : x4 < 64) (rest : List Char) :
    b64DecodeQuads (b64EncChar x1 :: b64EncChar x2 :: b64EncChar x3 ::
        b64EncChar x4 :: rest) =
      match b64DecodeQuads rest with
      | some bs => some ((x1 * 4 + x2 / 16) :: (x2 % 16 * 16 + x3 / 4) ::
          (x3 % 4 * 64 + x4) :: bs)
      | none => none := by
  simp only [b64DecodeQuads, b64DecChar_encChar x1 h1, b64DecChar_encChar x2 h2,
    b64DecChar_encChar x3 h3, b64DecChar_encChar x4 h4,
    if_neg (b64EncChar_ne_pad x3), if_neg (b64EncChar_ne_pad x4)]

lemma b64DecodeQuads_pad2 (x1 x2 x3 : Nat) (h1 : x1 < 64) (h2 : x2 < 64)
    (h3 : x3 < 64) :
    b64DecodeQuads [b64EncChar x1, b64EncChar x2, b64EncChar x3, '='] =
      some [x1 * 4 + x2 / 16, x2 % 16 * 16 + x3 / 4] := by
  simp only [b64DecodeQuads, b64DecChar_encChar x1 h1, b64DecChar_encChar x2 h2,
    b64DecChar_encChar x3 h3, if_neg (b64EncChar_ne_pad x3)]
  simp

lemma b64DecodeQuads_pad1 (x1 x2 : Nat) (h1 : x1 < 64) (h2 : x2 < 64) :
    b64DecodeQuads [b64EncChar x1, b64EncChar x2, '=', '='] =
      some [x1 * 4 + x2 / 16] := by
  simp only [b64DecodeQuads, b64DecChar_encChar x1 h1, b64DecChar_encChar x2 h2]
  simp

/-- Decoding the encoder's output recovers the input bytes. -/
theorem b64DecodeQuads_encode (bs : List Nat) :
    (∀ b ∈ bs, b < 256) → b64DecodeQuads (b64EncodeGroups bs) = some bs := by
  induction bs using b64EncodeGroups.induct with
  | case1 b1 b2 b3 rest ih =>
    intro h
    have hb1 : b1 < 256 := h b1 (by simp)
    have hb2 : b2 < 256 := h b2 (by simp)
    have hb3 : b3 < 256 := h b3 (by simp)
    show b64DecodeQuads (b64EncChar _ :: b64EncChar _ :: b64EncChar _ ::
      b64EncChar _ :: b64EncodeGroups rest) = _
    rw [b64DecodeQuads_cons _ _ _ _ (by omega) (by omega) (by omega) (by omega),
      ih (fun b hb => h b (by simp [hb]))]
    have e1 : (b1 * 65536 + b2 * 256 + b3) / 262144 * 4 +
        (b1 * 65536 + b2 * 256 + b3) / 4096 % 64 / 16 = b1 := by omega
    have e2 : (b1 * 65536 + b2 * 256 + b3) / 4096 % 64 % 16 * 16 +
        (b1 * 65536 + b2 * 256 + b3) / 64 % 64 / 4 = b2 := by omega
    have e3 : (b1 * 65536 + b2 * 256 + b3) / 64 % 64 % 4 * 64 +
        (b1 * 65536 + b2 * 256 + b3) % 64 = b3 := by omega
    rw [e1, e2, e3]
  | case2 b1 b2 =>
    intro h
    have hb1 : b1 < 256 := h b1 (by simp)
    have hb2 : b2 < 256 := h b2 (by simp)
    show b64DecodeQuads [b64EncChar _, b64EncChar _, b64EncChar _, '='] = _
    rw [b64DecodeQuads_pad2 _ _ _ (by omega) (by omega) (by omega)]
    have e1 : (b1 * 256 + b2) / 1024 * 4 + (b1 * 256 + b2) / 16 % 64 / 16 = b1 := by
      omega
    have e2 : (b1 * 256 + b2) / 16 % 64 % 16 * 16 + (b1 * 256 + b2) % 16 * 4 / 4 = b2 := by
      omega
    rw [e1, e2]
  | case3 b1 =>
    intro h
    have hb1 : b1 < 256 := h b1 (by simp)
    show b64DecodeQuads [b64EncChar _, b64EncChar _, '=', '='] = _
    rw [b64DecodeQuads_pad1 _ _ (by omega) (by omega)]
    have e1 : b1 / 4 * 4 + b1 % 4 * 16 / 16 = b1 := by omega
    rw [e1]
  | case4 => intro h; rfl

/-- Full urlsafe round trip on genuine byte lists. -/
theorem urlsafe_b64_roundtrip (bs : List Nat) (h : ∀ b ∈ bs, b < 256) :
    urlsafe_b64decode (urlsafe_b64encode bs) = some bs := by
  unfold urlsafe_b64decode urlsafe_b64encode
  have hfilter : (b64EncodeGroups bs).filter
      (fun c => (b64DecChar c).isSome || c == '=') = b64EncodeGroups bs := by
    rw [List.filter_eq_self]
    intro c hc
    rcases b64EncodeGroups_mem bs c hc with hs | hs
    · simp [hs]
    · simp [hs]
  show b64DecodeQuads ((b64EncodeGroups bs).filter _) = some bs
  rw [hfilter]
  exact b64DecodeQuads_encode bs h

/-! ## Path and character lemmas -/

lemma char_toNat_lt (c : Char) : c.toNat < 1114112 := by
  have h := c.valid
  unfold Char.toNat
  rcases h with h | ⟨h1, h2⟩ <;> omega

lemma toNat_ofNat_valid (n : Nat) (h : n.isValidChar) : (Char.ofNat n).toNat = n := by
  rw [Char.ofNat, dif_pos h]
  rfl

/-- Char.toLower can only produce characters in the lowercase latin range
from characters it changes; any target outside that range forces identity. -/
lemma toLower_eq_of_outside (c d : Char) (hd : d.toNat < 97 ∨ 122 < d.toNat)
    (h : c.toLower = d) : c = d := by
  have h2 : (if c.toNat ≥ 65 ∧ c.toNat ≤ 90 then Char.ofNat (c.toNat + 32) else c) = d := h
  by_cases hc : c.toNat ≥ 65 ∧ c.toNat ≤ 90
  · exfalso
    rw [if_pos hc] at h2
    have hv : (c.toNat + 32).isValidChar := Or.inl (by omega)
    have he := toNat_ofNat_valid (c.toNat + 32) hv
    rw [h2] at he
    omega
  · rw [if_neg hc] at h2
    exact h2

lemma splitChar_ne_nil (sep : Char) (cs : List Char) : splitChar sep cs ≠ [] := by
  induction cs with
  | nil => simp [splitChar]
  | cons c rest ih =>
    rcases hs : splitChar sep rest with _ | ⟨p, t⟩
    · exact absurd hs ih
    · simp only [splitChar, hs]
      split <;> simp

lemma splitChar_not_mem (sep : Char) (cs : List Char) :
    ∀ p ∈ splitChar sep cs, sep ∉ p := by
  induction cs with
  | nil =>
    intro p hp
    simp [splitChar] at hp
    simp [hp]
  | cons c rest ih =>
    intro p hp
    rcases hs : splitChar sep rest with _ | ⟨q, t⟩
    · exact absurd hs (splitChar_ne_nil sep rest)
    · simp only [splitChar, hs] at hp
      by_cases hc : c = sep
      · rw [if_pos hc] at hp
        simp only [List.mem_cons] at hp
        rcases hp with rfl | rfl | hp
        · simp
        · exact ih _ (by rw [hs]; simp)
        · exact ih p (by rw [hs]; simp [hp])
      · rw [if_neg hc] at hp
        simp only [List.mem_cons] at hp
        rcases hp with rfl | hp
        · intro hmem
          rcases List.mem_cons.mp hmem with h | h
          · exact hc h.symm
          · exact ih q (by rw [hs]; simp) h
        · exact ih p (by rw [hs]; simp [hp])

lemma splitChar_of_not_mem (sep : Char) (cs : List Char) (h : sep ∉ cs) :
    splitChar sep cs = [cs] := by
  induction cs with
  | nil => rfl
  | cons c rest ih =>
    simp only [List.mem_cons, not_or] at h
    simp only [splitChar, ih h.2]
    rw [if_neg (fun hc : c = sep => h.1 hc.symm)]

lemma pathNameL_no_slash (cs : List Char) : '/' ∉ pathNameL cs := by
  unfold pathNameL
  rcases hg : (pathComponents cs).getLast? with _ | ⟨p⟩
  · simp
  · have hp : p ∈ pathComponents cs := List.mem_of_getLast?_eq_some hg
    have hp2 : p ∈ splitChar '/' cs := List.mem_of_mem_filter hp
    simpa using splitChar_not_mem '/' cs p hp2

lemma pathNameL_of_simple (cs : List Char) (hne : cs ≠ []) (hslash : '/' ∉ cs)
    (hdot : cs ≠ ['.']) : pathNameL cs = cs := by
  unfold pathNameL pathComponents
  rw [splitChar_of_not_mem '/' cs hslash]
  simp [List.filter_cons, hne, hdot]

lemma lastIdxOf_eq_none (cs : List Char) (c : Char) (h : c ∉ cs) :
    lastIdxOf cs c = none := by
  induction cs with
  | nil => rfl
  | cons x xs ih =>
    simp only [List.mem_cons, not_or] at h
    simp only [lastIdxOf, ih h.2]
    rw [if_neg (fun hc : x = c => h.1 hc.symm)]

lemma lastIdxOf_append (xs ys : List Char) (c : Char) (h : c ∉ ys) :
    lastIdxOf (xs ++ c :: ys) c = some xs.length := by
  induction xs with
  | nil =>
    show lastIdxOf (c :: ys) c = some 0
    unfold lastIdxOf
    rw [lastIdxOf_eq_none ys c h, if_pos rfl]
  | cons x rest ih =>
    show lastIdxOf (x :: (rest ++ c :: ys)) c = some (rest.length + 1)
    unfold lastIdxOf
    rw [ih]

lemma not_mem_of_lastIdxOf_none (cs : List Char) (c : Char)
    (h : lastIdxOf cs c = none) : c ∉ cs := by
  induction cs with
  | nil => simp
  | cons x xs ih =>
    rcases hx : lastIdxOf xs c with _ | ⟨j⟩
    · simp only [lastIdxOf, hx] at h
      by_cases hxc : x = c
      · rw [if_pos hxc] at h; cases h
      · simp only [List.mem_cons, not_or]
        exact ⟨fun hc => hxc hc.symm, ih hx⟩
    · simp only [lastIdxOf, hx] at h
      cases h

lemma lastIdxOf_spec (cs : List Char) (c : Char) :
    ∀ i, lastIdxOf cs c = some i →
      i < cs.length ∧ cs.drop i = c :: cs.drop (i + 1) ∧ c ∉ cs.drop (i + 1) := by
  induction cs with
  | nil => intro i h; simp [lastIdxOf] at h
  | cons x xs ih =>
    intro i h
    rcases hx : lastIdxOf xs c with _ | ⟨j⟩
    · simp only [lastIdxOf, hx] at h
      by_cases hxc : x = c
      · rw [if_pos hxc] at h
        injection h with h
        subst h
        refine ⟨by simp, by simp [hxc], ?_⟩
        simpa using not_mem_of_lastIdxOf_none xs c hx
      · rw [if_neg hxc] at h; cases h
    · simp only [lastIdxOf, hx] at h
      injection h with h
      subst h
      obtain ⟨hj, hd, hn⟩ := ih j hx
      refine ⟨by simpa using Nat.succ_lt_succ hj, ?_, ?_⟩
      · simpa [List.drop] using hd
      · simpa [List.drop] using hn

lemma pyStemL_no_dot (name : List Char) (h : '.' ∉ name) : pyStemL name = name := by
  unfold pyStemL
  rw [lastIdxOf_eq_none name _ h]

lemma pyStemL_append_ext (safe t : List Char) (hne : safe ≠ [])
    (htd : '.' ∉ t) (htn : t ≠ []) :
    pyStemL (safe ++ '.' :: t) = safe := by
  simp only [pyStemL, lastIdxOf_append safe t '.' htd]
  have h1 : 0 < safe.length := List.length_pos.mpr hne
  have h2 : 0 < t.length := List.length_pos.mpr htn
  have hcond : 0 < safe.length ∧ safe.length + 1 < (safe ++ '.' :: t).length := by
    simp only [List.length_append, List.length_cons]
    omega
  rw [if_pos hcond, List.take_left]

/-- The suffix of any name component is empty or a dot followed by a
nonempty, dot-free tail drawn from the component. -/
lemma pySuffixL_shape (name : List Char) :
    pySuffixL name = [] ∨
    ∃ t, pySuffixL name = '.' :: t ∧ '.' ∉ t ∧ t ≠ [] ∧ t ⊆ name := by
  rcases hl : lastIdxOf name '.' with _ | ⟨i⟩
  · exact Or.inl (by simp only [pySuffixL, hl])
  · simp only [pySuffixL, hl]
    obtain ⟨hi, hdrop, hnot⟩ := lastIdxOf_spec name '.' i hl
    by_cases hc : 0 < i ∧ i + 1 < name.length
    · right
      refine ⟨name.drop (i + 1), ?_, hnot, ?_, ?_⟩
      · rw [if_pos hc]; exact hdrop
      · rw [Ne, List.drop_eq_nil_iff]; omega
      · exact List.drop_subset _ _
    · exact Or.inl (by rw [if_neg hc])

/-- Shape of the lowercased extension appended by generate_secure_filename:
empty, or a dot followed by a nonempty tail containing neither a dot nor
a slash. -/
lemma ext_shape (fn : String) :
    (pyLower (pySuffix fn)).data = [] ∨
    ∃ t, (pyLower (pySuffix fn)).data = '.' :: t ∧ '.' ∉ t ∧ t ≠ [] ∧ '/' ∉ t := by
  rw [show (pyLower (pySuffix fn)).data =
    List.map Char.toLower (pySuffixL (pathNameL fn.data)) from rfl]
  rcases pySuffixL_shape (pathNameL fn.data) with h | ⟨t, ht, htd, htn, hsub⟩
  · left; rw [h]; rfl
  · right
    refine ⟨t.map Char.toLower, ?_, ?_, by simpa using htn, ?_⟩
    · rw [ht]
      simp
    · intro hmem
      obtain ⟨c, hc, he⟩ := List.mem_map.mp hmem
      exact htd (by rwa [toLower_eq_of_outside c '.' (by decide) he] at hc)
    · intro hmem
      obtain ⟨c, hc, he⟩ := List.mem_map.mp hmem
      have : c = '/' := toLower_eq_of_outside c '/' (by decide) he
      subst this
      exact pathNameL_no_slash fn.data (hsub hc)

lemma string_data_append (s t : String) : (s ++ t).data = s.data ++ t.data := rfl

/-- Path(...).stem recovers the base64 part of a generated name: the name
is a nonempty dot-free slash-free base64 text followed by a suffix of the
shape produced by ext_shape. -/
lemma pyStem_generated (safeL extL : List Char) (hne : safeL ≠ [])
    (hnd : '.' ∉ safeL) (hns : '/' ∉ safeL)
    (hext : extL = [] ∨ ∃ t, extL = '.' :: t ∧ '.' ∉ t ∧ t ≠ [] ∧ '/' ∉ t) :
    pyStem ⟨safeL ++ extL⟩ = ⟨safeL⟩ := by
  have hslash : '/' ∉ safeL ++ extL := by
    intro hmem
    rcases List.mem_append.mp hmem with h | h
    · exact hns h
    · rcases hext with rfl | ⟨t, rfl, _, _, hts⟩
      · simp at h
      · rcases List.mem_cons.mp h with h | h
        · cases h
        · exact hts h
  have hnil : safeL ++ extL ≠ [] := by
    intro hx
    exact hne (List.append_eq_nil.mp hx).1
  have hdot1 : safeL ++ extL ≠ ['.'] := by
    intro hx
    rcases safeL with _ | ⟨a, as⟩
    · exact hne rfl
    · have : a = '.' := by
        have := congrArg (fun l => l.head?) hx
        simpa using this
      exact hnd (by simp [this])
  unfold pyStem
  rw [show (String.mk (safeL ++ extL)).data = safeL ++ extL from rfl,
    pathNameL_of_simple _ hnil hslash hdot1]
  rcases hext with rfl | ⟨t, rfl, htd, htn, _⟩
  · rw [List.append_nil, pyStemL_no_dot safeL hnd]
  · rw [pyStemL_append_ext safeL t hne htd htn]

/-! ## CryptoNamer (SecureFileStorage.generate_secure_filename /
decrypt_filename)

The Fernet cipher (cryptography.fernet) together with UTF-8 encoding of
the plaintext string is an external library, modelled by its interface: a
pair of functions encrypt and decrypt.  The theorems about name
generation assume exactly the library's documented contract: decrypting
a token yields the original plaintext, tokens are nonempty byte strings.
Fernet's internal randomness is irrelevant here because the source makes
every generated plaintext unique through the explicit token_hex
arguments, which this embedding passes explicitly. -/

structure Cipher where
  encrypt : String → List Nat
  decrypt : List Nat → Option String

/-- SecureFileStorage.generate_secure_filename: build
"{file_id}_{original_filename}_{token_hex}", encrypt, urlsafe-base64
encode, then append the lowercased original extension.  The token_hex(8)
value is the explicit argument tok. -/
def generate_secure_filename (c : Cipher) (original_filename : String)
    (file_id : String) (tok : String) : String :=
  urlsafe_b64encode (c.encrypt (file_id ++ "_" ++ original_filename ++ "_" ++ tok))
    ++ pyLower (pySuffix original_filename)

/-- SecureFileStorage.decrypt_filename: strip the extension, base64
decode, decrypt; any failure yields "unknown" instead of an exception. -/
def decrypt_filename (c : Cipher) (encrypted_filename : String) : String :=
  match urlsafe_b64decode (pyStem encrypted_filename) with
  | some data =>
    match c.decrypt data with
    | some s => s
    | none => "unknown"
  | none => "unknown"

/-- Decrypting a generated name recovers the full plaintext, under the
Fernet contract. -/
lemma decrypt_generate_eq (c : Cipher) (original_filename file_id tok : String)
    (hrt : ∀ m, c.decrypt (c.encrypt m) = some m)
    (hne : ∀ m, c.encrypt m ≠ [])
    (hbytes : ∀ m, ∀ b ∈ c.encrypt m, b < 256) :
    decrypt_filename c (generate_secure_filename c original_filename file_id tok) =
      file_id ++ "_" ++ original_filename ++ "_" ++ tok := by
  set pt := file_id ++ "_" ++ original_filename ++ "_" ++ tok with hpt
  have hstem : pyStem (generate_secure_filename c original_filename file_id tok) =
      urlsafe_b64encode (c.encrypt pt) := by
    have h1 : (generate_secure_filename c original_filename file_id tok) =
        ⟨b64EncodeGroups (c.encrypt pt) ++ (pyLower (pySuffix original_filename)).data⟩ := by
      unfold generate_secure_filename
      rw [← hpt]
      exact congrArg String.mk (string_data_append _ _)
    rw [h1]
    exact pyStem_generated _ _
      (b64EncodeGroups_ne_nil _ (hne pt))
      (fun hm => b64EncodeGroups_no_dot _ _ hm rfl)
      (fun hm => b64EncodeGroups_no_slash _ _ hm rfl)
      (ext_shape original_filename)
  unfold decrypt_filename
  rw [hstem]
  simp only [urlsafe_b64_roundtrip _ (hbytes pt), hrt pt]

/-- C7: for every logical id, original filename and random token,
decrypting the generated opaque name under the same cipher yields the
plaintext "{id}_{filename}_{token}", which contains both the id and the
filename as contiguous substrings.  The hypotheses are exactly the
Fernet library contract. -/
theorem C7_name_roundtrip_contains (c : Cipher)
    (original_filename file_id tok : String)
    (hrt : ∀ m, c.decrypt (c.encrypt m) = some m)
    (hne : ∀ m, c.encrypt m ≠ [])
    (hbytes : ∀ m, ∀ b ∈ c.encrypt m, b < 256) :
    decrypt_filename c (generate_secure_filename c original_filename file_id tok) =
      file_id ++ "_" ++ original_filename ++ "_" ++ tok ∧
    file_id.data <:+:
      (decrypt_filename c (generate_secure_filename c original_filename file_id tok)).data ∧
    original_filename.data <:+:
      (decrypt_filename c (generate_secure_filename c original_filename file_id tok)).data := by
  have heq := decrypt_generate_eq c original_filename file_id tok hrt hne hbytes
  refine ⟨heq, ?_, ?_⟩
  · rw [heq]
    refine ⟨[], ("_" ++ original_filename ++ "_" ++ tok).data, ?_⟩
    simp only [string_data_append, List.nil_append, List.append_assoc]
  · rw [heq]
    refine ⟨(file_id ++ "_").data, ("_" ++ tok).data, ?_⟩
    simp only [string_data_append, List.append_assoc]

/-! A concrete cipher satisfying the Fernet contract, used to instantiate
the contract hypotheses on concrete inputs: a leading version byte
followed by a fixed-width base-256 encoding of each code point. -/

def chEnc (c : Char) : List Nat :=
  [c.toNat % 256, c.toNat / 256 % 256, c.toNat / 65536 % 256]

def strEnc : List Char → List Nat
  | [] => []
  | ch :: rest => chEnc ch ++ strEnc rest

def chsDec : List Nat → Option (List Char)
  | [] => some []
  | b1 :: b2 :: b3 :: rest =>
    match chsDec rest with
    | some cs => some (Char.ofNat (b1 + 256 * b2 + 65536 * b3) :: cs)
    | none => none
  | _ => none

def toyCipher : Cipher where
  encrypt m := 0 :: strEnc m.data
  decrypt bs :=
    match bs with
    | b :: rest =>
      if b = 0 then
        match chsDec rest with
        | some cs => some (String.mk cs)
        | none => none
      else none
    | [] => none

lemma chsDec_strEnc (cs : List Char) : chsDec (strEnc cs) = some cs := by
  induction cs with
  | nil => rfl
  | cons ch rest ih =>
    show chsDec (chEnc ch ++ strEnc rest) = some (ch :: rest)
    have hlt : ch.toNat < 1114112 := char_toNat_lt ch
    have hco : ch.toNat % 256 + 256 * (ch.toNat / 256 % 256) +
        65536 * (ch.toNat / 65536 % 256) = ch.toNat := by omega
    simp only [chEnc, List.cons_append, List.nil_append, chsDec, ih, hco,
      Char.ofNat_toNat]
    rw [show ([] : List Nat).append (strEnc rest) = strEnc rest from rfl, ih]

lemma toyCipher_roundtrip (m : String) :
    toyCipher.decrypt (toyCipher.encrypt m) = some m := by
  show (if (0 : Nat) = 0 then
      (match chsDec (strEnc m.data) with
       | some cs => some (String.mk cs)
       | none => none)
    else none) = some m
  rw [if_pos rfl]
  simp only [chsDec_strEnc]

lemma toyCipher_ne (m : String) : toyCipher.encrypt m ≠ [] := by
  show 0 :: strEnc m.data ≠ []
  simp

lemma strEnc_bytes (cs : List Char) : ∀ b ∈ strEnc cs, b < 256 := by
  induction cs with
  | nil => simp [strEnc]
  | cons ch rest ih =>
    intro b hb
    rcases List.mem_append.mp (by simpa [strEnc] using hb) with h | h
    · simp only [chEnc, List.mem_cons] at h
      rcases h with rfl | rfl | rfl | h
      · omega
      · omega
      · omega
      · simp at h
    · exact ih b h

lemma toyCipher_bytes (m : String) : ∀ b ∈ toyCipher.encrypt m, b < 256 := by
  show ∀ b ∈ 0 :: strEnc m.data, b < 256
  intro b hb
  rcases List.mem_cons.mp hb with rfl | hb
  · omega
  · exact strEnc_bytes m.data b hb

/-- C7 witness: the round trip at a concrete name, id and token under the
concrete contract-satisfying cipher. -/
theorem C7_name_roundtrip_contains_witness :
    decrypt_filename toyCipher (generate_secure_filename toyCipher "photo.jpg" "file-1" "a1b2c3d4") =
      "file-1" ++ "_" ++ "photo.jpg" ++ "_" ++ "a1b2c3d4" ∧
    ("file-1" : String).data <:+:
      (decrypt_filename toyCipher (generate_secure_filename toyCipher "photo.jpg" "file-1" "a1b2c3d4")).data ∧
    ("photo.jpg" : String).data <:+:
      (decrypt_filename toyCipher (generate_secure_filename toyCipher "photo.jpg" "file-1" "a1b2c3d4")).data :=
  C7_name_roundtrip_contains toyCipher "photo.jpg" "file-1" "a1b2c3d4"
    toyCipher_roundtrip toyCipher_ne toyCipher_bytes

/-- C8: name reversal is a total function; whenever base64 decoding of
the stripped name or decryption fails, decrypt_filename returns the
benign marker "unknown" rather than an error. -/
theorem C8_decrypt_filename_unknown (c : Cipher) (s : String)
    (hfail : (urlsafe_b64decode (pyStem s)).bind c.decrypt = none) :
    decrypt_filename c s = "unknown" := by
  rcases hb : urlsafe_b64decode (pyStem s) with _ | ⟨data⟩
  · simp only [decrypt_filename, hb]
  · simp only [hb, Option.some_bind] at hfail
    simp only [decrypt_filename, hb, hfail]

/-- C8 witness: a tampered foreign name decrypts to "unknown". -/
theorem C8_decrypt_filename_unknown_witness :
    decrypt_filename toyCipher "!!!.jpg" = "unknown" :=
  C8_decrypt_filename_unknown toyCipher "!!!.jpg" (by rfl)

/-! ## SHA-256 (hashlib.sha256, FIPS 180-4) over byte lists -/

def w32 (n : Nat) : Nat := n % 4294967296

def rotr (x n : Nat) : Nat := w32 (x / 2 ^ n + x % 2 ^ n * 2 ^ (32 - n))

def not32 (x : Nat) : Nat := 4294967295 - x % 4294967296

def ch32 (x y z : Nat) : Nat := (x &&& y) ^^^ (not32 x &&& z)

def maj32 (x y z : Nat) : Nat := (x &&& y) ^^^ (x &&& z) ^^^ (y &&& z)

def bigSigma0 (x : Nat) : Nat := rotr x 2 ^^^ rotr x 13 ^^^ rotr x 22

def bigSigma1 (x : Nat) : Nat := rotr x 6 ^^^ rotr x 11 ^^^ rotr x 25

def smallSigma0 (x : Nat) : Nat := rotr x 7 ^^^ rotr x 18 ^^^ x % 4294967296 / 8

def smallSigma1 (x : Nat) : Nat := rotr x 17 ^^^ rotr x 19 ^^^ x % 4294967296 / 1024

/-- The 64 round constants of FIPS 180-4 (written in decimal). -/
def shaK : List Nat :=
  [1116352408, 1899447441, 3049323471, 3921009573, 961987163, 1508970993,
   2453635748, 2870763221, 3624381080, 310598401, 607225278, 1426881987,
   1925078388, 2162078206, 2614888103, 3248222580, 3835390401, 4022224774,
   264347078, 604807628, 770255983, 1249150122, 1555081692, 1996064986,
   2554220882, 2821834349, 2952996808, 3210313671, 3336571891, 3584528711,
   113926993, 338241895, 666307205, 773529912, 1294757372, 1396182291,
   1695183700, 1986661051, 2177026350, 2456956037, 2730485921, 2820302411,
   3259730800, 3345764771, 3516065817, 3600352804, 4094571909, 275423344,
   430227734, 506948616, 659060556, 883997877, 958139571, 1322822218,
   1537002063, 1747873779, 1955562222, 2024104815, 2227730452, 2361852424,
   2428436474, 2756734187, 3204031479, 3329325298]

structure Sha8 where
  a : Nat
  b : Nat
  c : Nat
  d : Nat
  e : Nat
  f : Nat
  g : Nat
  h : Nat
  deriving Repr

/-- The eight initial hash words of FIPS 180-4 (written in decimal). -/
def shaInit : Sha8 :=
  { a := 1779033703, b := 3144134277, c := 1013904242, d := 2773480762,
    e := 1359893119, f := 2600822924, g := 528734635, h := 1541459225 }

/-- Append the next message-schedule word. -/
def shaExtendStep (ws : List Nat) : List Nat :=
  ws ++ [w32 (smallSigma1 (ws.getD (ws.length - 2) 0) + ws.getD (ws.length - 7) 0 +
    smallSigma0 (ws.getD (ws.length - 15) 0) + ws.getD (ws.length - 16) 0)]

def shaScheduleAux : Nat → List Nat → List Nat
  | 0, ws => ws
  | n + 1, ws => shaScheduleAux n (shaExtendStep ws)

/-- Extend 16 block words to the 64-entry message schedule. -/
def shaSchedule (ws : List Nat) : List Nat := shaScheduleAux 48 ws

def shaRound (st : Sha8) (kw : Nat × Nat) : Sha8 :=
  { a := w32 (w32 (st.h + bigSigma1 st.e + ch32 st.e st.f st.g + kw.1 + kw.2) +
        w32 (bigSigma0 st.a + maj32 st.a st.b st.c))
    b := st.a
    c := st.b
    d := st.c
    e := w32 (st.d + w32 (st.h + bigSigma1 st.e + ch32 st.e st.f st.g + kw.1 + kw.2))
    f := st.e
    g := st.f
    h := st.g }

def shaCompress (st : Sha8) (block : List Nat) : Sha8 :=
  match (shaK.zip (shaSchedule block)).foldl shaRound st with
  | fin =>
    { a := w32 (st.a + fin.a), b := w32 (st.b + fin.b), c := w32 (st.c + fin.c),
      d := w32 (st.d + fin.d), e := w32 (st.e + fin.e), f := w32 (st.f + fin.f),
      g := w32 (st.g + fin.g), h := w32 (st.h + fin.h) }

def bytesToWords : List Nat → List Nat
  | b1 :: b2 :: b3 :: b4 :: rest =>
    (b1 * 16777216 + b2 * 65536 + b3 * 256 + b4) :: bytesToWords rest
  | _ => []

def chunkBlocksAux : Nat → List Nat → List (List Nat)
  | 0, _ => []
  | n + 1, bs => if bs.isEmpty then [] else bs.take 64 :: chunkBlocksAux n (bs.drop 64)

/-- Split into 64-byte blocks (the fuel never runs out: one unit per byte). -/
def chunkBlocks (bs : List Nat) : List (List Nat) := chunkBlocksAux bs.length bs

def lenBytes (n : Nat) : List Nat :=
  [n / 72057594037927936 % 256, n / 281474976710656 % 256,
   n / 1099511627776 % 256, n / 4294967296 % 256,
   n / 16777216 % 256, n / 65536 % 256, n / 256 % 256, n % 256]

/-- Merkle–Damgard padding: 0x80, zeros to 56 mod 64, 8-byte bit length. -/
def shaPad (msg : List Nat) : List Nat :=
  msg ++ 128 :: List.replicate ((119 - msg.length % 64) % 64) 0
    ++ lenBytes (msg.length * 8)

def sha256Words (msg : List Nat) : Sha8 :=
  (chunkBlocks (shaPad msg)).foldl (fun st blk => shaCompress st (bytesToWords blk))
    shaInit

def hexDigits : List Char := "0123456789abcdef".data

def hexChar (n : Nat) : Char := hexDigits.getD (n % 16) '0'

def toHex8 (w : Nat) : List Char :=
  [hexChar (w / 268435456), hexChar (w / 16777216), hexChar (w / 1048576),
   hexChar (w / 65536), hexChar (w / 4096), hexChar (w / 256), hexChar (w / 16),
   hexChar w]

/-- hashlib.sha256(msg).hexdigest(). -/
def sha256hex (msg : List Nat) : String :=
  ⟨toHex8 (sha256Words msg).a ++ toHex8 (sha256Words msg).b ++
   toHex8 (sha256Words msg).c ++ toHex8 (sha256Words msg).d ++
   toHex8 (sha256Words msg).e ++ toHex8 (sha256Words msg).f ++
   toHex8 (sha256Words msg).g ++ toHex8 (sha256Words msg).h⟩

/-! FIPS 180-4 test vectors. -/

example : sha256hex [] =
    "e3b0c44298fc1c149afbf4c8996fb92427ae41e4649b934ca495991b7852b855" := by rfl

example : sha256hex (asciiBytes "abc") =
    "ba7816bf8f01cfea414140de5dae2223b00361a396177a9cb410ff61f20015ad" := by rfl

lemma toHex8_length (w : Nat) : (toHex8 w).length = 8 := rfl

lemma sha256hex_length (msg : List Nat) : (sha256hex msg).length = 64 := by
  show (sha256hex msg).data.length = 64
  simp [sha256hex, List.length_append, toHex8_length]

lemma hexChar_mem (n : Nat) : hexChar n ∈ hexDigits := by
  unfold hexChar
  have hlt : n % 16 < hexDigits.length := by
    have : n % 16 < 16 := Nat.mod_lt _ (by omega)
    simpa [hexDigits] using this
  rw [List.getD_eq_getElem _ _ hlt]
  exact List.getElem_mem hlt

lemma toHex8_mem (w : Nat) : ∀ ch ∈ toHex8 w, ch ∈ hexDigits := by
  intro ch hc
  simp only [toHex8, List.mem_cons, List.not_mem_nil, or_false] at hc
  rcases hc with rfl | rfl | rfl | rfl | rfl | rfl | rfl | rfl <;> exact hexChar_mem _

lemma sha256hex_hex (msg : List Nat) : ∀ ch ∈ (sha256hex msg).data, ch ∈ hexDigits := by
  intro ch hc
  simp only [sha256hex, List.mem_append] at hc
  rcases hc with ((((((h | h) | h) | h) | h) | h) | h) | h <;> exact toHex8_mem _ ch h

/-! ## Storage backends and facade

The local upload directory and the S3 bucket are each modelled as an
association list from stored filename to file bytes, newest entry first,
so writing an existing name shadows (overwrites) the old bytes.  The
backend write is fallible; its outcome is an explicit oracle argument:
none = the write succeeds, some (k, msg) = the write raises an exception
with message msg after k bytes reached the local file (truncating open
plus partial write; the S3 upload is treated as atomic).  The random
token_hex(8)/token_hex(4) draws of store_file are the explicit arguments
tok1 (first name), tok2 and tok3 (retry name).  db is None in the service
layer call, so the dynamic configuration equals the settings values. -/

structure StorageState where
  localFiles : List (String × List Nat)
  s3Files : List (String × List Nat)

def lookupFile (fs : List (String × List Nat)) (n : String) : Option (List Nat) :=
  (fs.find? (fun e => e.1 == n)).map (fun e => e.2)

def writeFile (fs : List (String × List Nat)) (n : String) (bs : List Nat) :
    List (String × List Nat) := (n, bs) :: fs

/-- Python `file.filename or "unknown"` (empty string is falsy). -/
def pyOr (o : Option String) (d : String) : String :=
  match o with
  | some str => if str == "" then d else str
  | none => d

/-- Python f-string interpolation of an Optional[str]. -/
def pyStr : Option String → String
  | some str => str
  | none => "None"

/-- The name generated on the first attempt of store_file. -/
def first_stored_filename (c : Cipher) (f : UploadFile) (file_id tok1 : String) :
    String :=
  generate_secure_filename c (pyOr f.filename "unknown") file_id tok1

/-- The name the local branch finally writes to: on collision with an
existing file the name is regenerated once with extra randomness
(token_hex(4) prefix and a fresh token_hex(8)); no further check. -/
def local_target_filename (c : Cipher) (st : StorageState) (f : UploadFile)
    (file_id tok1 tok2 tok3 : String) : String :=
  if (lookupFile st.localFiles (first_stored_filename c f file_id tok1)).isSome then
    generate_secure_filename c (tok3 ++ "_" ++ pyStr f.filename) file_id tok2
  else first_stored_filename c f file_id tok1

/-- SecureFileStorage.store_file (db = None). -/
def store_file (c : Cipher) (s : Settings) (s3_ready : Bool) (st : StorageState)
    (f : UploadFile) (file_id : String) (tok1 tok2 tok3 : String)
    (wres : Option (Nat × String)) :
    Except FVError (String × String × Nat) × StorageState :=
  if pyLower s.STORAGE_TYPE == "s3" && s3_ready then
    match wres with
    | none =>
      (.ok (first_stored_filename c f file_id tok1,
          "sha256:" ++ sha256hex f.content, f.content.length),
       { st with s3Files :=
                  writeFile st.s3Files (first_stored_filename c f file_id tok1)
                    f.content })
    | some e =>
      (.error (.fileUploadException ("Storage failed: " ++ e.2)), st)
  else
    match wres with
    | none =>
      (.ok (local_target_filename c st f file_id tok1 tok2 tok3,
          "sha256:" ++ sha256hex f.content, f.content.length),
       { st with localFiles :=
                  writeFile st.localFiles
                    (local_target_filename c st f file_id tok1 tok2 tok3)
                    f.content })
    | some e =>
      (.error (.fileUploadException ("Storage failed: " ++ e.2)),
       { st with localFiles :=
                  writeFile st.localFiles
                    (local_target_filename c st f file_id tok1 tok2 tok3)
                    (f.content.take e.1) })

/-- SecureFileStorage.get_file_path followed by reading the file bytes
(None for the S3 backend or when the file does not exist). -/
def get_file_bytes (storage_type : String) (st : StorageState)
    (stored_filename : String) : Option (List Nat) :=
  if storage_type == "s3" then none
  else lookupFile st.localFiles stored_filename

/-- SecureFileStorage.verify_file_integrity. -/
def verify_file_integrity (storage_type : String) (st : StorageState)
    (stored_filename expected_hash : String) : Bool :=
  if storage_type == "s3" then true
  else
    match get_file_bytes storage_type st stored_filename with
    | none => false
    | some bytes => ("sha256:" ++ sha256hex bytes) == expected_hash

/-- FileService.upload_file essence: validate, then store; a validation
error aborts before any storage interaction. -/
def upload_file (c : Cipher) (s : Settings) (s3_ready : Bool) (st : StorageState)
    (f : UploadFile) (file_id : String) (tok1 tok2 tok3 : String)
    (wres : Option (Nat × String)) :
    Except FVError (String × String × Nat) × StorageState :=
  match validate_file s f with
  | .error e => (.error e, st)
  | .ok _ => store_file c s s3_ready st f file_id tok1 tok2 tok3 wres

lemma lookupFile_writeFile_self (fs : List (String × List Nat)) (n : String)
    (bs : List Nat) : lookupFile (writeFile fs n bs) n = some bs := by
  simp [lookupFile, writeFile, List.find?_cons]

lemma lookupFile_writeFile_other (fs : List (String × List Nat)) (n m : String)
    (bs : List Nat) (h : m ≠ n) :
    lookupFile (writeFile fs n bs) m = lookupFile fs m := by
  have : (n == m) = false := beq_eq_false_iff_ne.mpr (Ne.symm h)
  simp [lookupFile, writeFile, List.find?_cons, this]

lemma string_data_inj (s t : String) (h : s.data = t.data) : s = t := by
  cases s
  cases t
  exact congrArg String.mk h

/-- Local branch of store_file on a successful write. -/
lemma store_file_local (c : Cipher) (s : Settings) (s3r : Bool) (st : StorageState)
    (f : UploadFile) (file_id tok1 tok2 tok3 : String)
    (hloc : (pyLower s.STORAGE_TYPE == "s3" && s3r) = false) :
    store_file c s s3r st f file_id tok1 tok2 tok3 none =
      (.ok (local_target_filename c st f file_id tok1 tok2 tok3,
        "sha256:" ++ sha256hex f.content, f.content.length),
       { st with localFiles :=
                  writeFile st.localFiles
                    (local_target_filename c st f file_id tok1 tok2 tok3)
                    f.content }) := by
  simp only [store_file, hloc, Bool.false_eq_true, if_false]

/-- Local branch of store_file on a failing write: the exception is
wrapped and the partial bytes stay in place. -/
lemma store_file_local_fail (c : Cipher) (s : Settings) (s3r : Bool)
    (st : StorageState) (f : UploadFile) (file_id tok1 tok2 tok3 : String)
    (k : Nat) (msg : String)
    (hloc : (pyLower s.STORAGE_TYPE == "s3" && s3r) = false) :
    store_file c s s3r st f file_id tok1 tok2 tok3 (some (k, msg)) =
      (.error (.fileUploadException ("Storage failed: " ++ msg)),
       { st with localFiles :=
                  writeFile st.localFiles
                    (local_target_filename c st f file_id tok1 tok2 tok3)
                    (f.content.take k) }) := by
  simp only [store_file, hloc, Bool.false_eq_true, if_false]

/-- C3 (amended): on a collision of the generated name with an existing
local file, the name is regenerated exactly once with additional
randomness (token_hex(4) prefix, fresh token_hex(8)) and the write goes
to the regenerated name without any existence check: other names keep
their contents, and the regenerated name maps to the new content
afterwards -- so a second collision is overwritten, and no
StorageNameCollision error exists in the code. -/
theorem C3_collision_retry_overwrites (c : Cipher) (s : Settings) (s3r : Bool)
    (st : StorageState) (f : UploadFile) (file_id tok1 tok2 tok3 : String)
    (hloc : (pyLower s.STORAGE_TYPE == "s3" && s3r) = false)
    (hcol : (lookupFile st.localFiles (first_stored_filename c f file_id tok1)).isSome = true) :
    (store_file c s s3r st f file_id tok1 tok2 tok3 none).1 =
      .ok (generate_secure_filename c (tok3 ++ "_" ++ pyStr f.filename) file_id tok2,
        "sha256:" ++ sha256hex f.content, f.content.length) ∧
    lookupFile (store_file c s s3r st f file_id tok1 tok2 tok3 none).2.localFiles
      (generate_secure_filename c (tok3 ++ "_" ++ pyStr f.filename) file_id tok2) =
      some f.content ∧
    (∀ m bs, m ≠ generate_secure_filename c (tok3 ++ "_" ++ pyStr f.filename) file_id tok2 →
      lookupFile st.localFiles m = some bs →
      lookupFile (store_file c s s3r st f file_id tok1 tok2 tok3 none).2.localFiles m
        = some bs) := by
  have htar : local_target_filename c st f file_id tok1 tok2 tok3 =
      generate_secure_filename c (tok3 ++ "_" ++ pyStr f.filename) file_id tok2 := by
    unfold local_target_filename
    rw [if_pos hcol]
  rw [store_file_local c s s3r st f file_id tok1 tok2 tok3 hloc, htar]
  refine ⟨rfl, lookupFile_writeFile_self _ _ _, ?_⟩
  intro m bs hm hl
  have := lookupFile_writeFile_other st.localFiles
    (generate_secure_filename c (tok3 ++ "_" ++ pyStr f.filename) file_id tok2)
    m f.content hm
  exact this.trans hl

def f3cand : UploadFile :=
  { filename := some "a.jpg", content_type := "image/jpeg", size := some 2,
    content := [9, 9] }

/-- A local directory already containing both the first generated name
and the regenerated retry name. -/
def st3 : StorageState :=
  ⟨[(first_stored_filename toyCipher f3cand "id" "t1", [1]),
    (generate_secure_filename toyCipher ("t3" ++ "_" ++ "a.jpg") "id" "t2", [2])], []⟩

/-- C3 witness: amended behaviour at the concrete double-collision state. -/
theorem C3_collision_retry_overwrites_witness :
    (store_file toyCipher defaultSettings false st3 f3cand "id" "t1" "t2" "t3" none).1 =
      .ok (generate_secure_filename toyCipher ("t3" ++ "_" ++ pyStr f3cand.filename) "id" "t2",
        "sha256:" ++ sha256hex f3cand.content, f3cand.content.length) ∧
    lookupFile (store_file toyCipher defaultSettings false st3 f3cand "id" "t1" "t2" "t3" none).2.localFiles
      (generate_secure_filename toyCipher ("t3" ++ "_" ++ pyStr f3cand.filename) "id" "t2") =
      some f3cand.content ∧
    (∀ m bs, m ≠ generate_secure_filename toyCipher ("t3" ++ "_" ++ pyStr f3cand.filename) "id" "t2" →
      lookupFile st3.localFiles m = some bs →
      lookupFile (store_file toyCipher defaultSettings false st3 f3cand "id" "t1" "t2" "t3" none).2.localFiles m
        = some bs) :=
  C3_collision_retry_overwrites toyCipher defaultSettings false st3 f3cand
    "id" "t1" "t2" "t3" (by decide) (by decide)

/-- C3 counterexample: with both the first and the regenerated name
already present, store_file succeeds (raises nothing) and replaces the
bytes stored under the regenerated name -- the existing object is
overwritten instead of a StorageNameCollision being raised. -/
theorem C3_counterexample :
    lookupFile st3.localFiles
      (generate_secure_filename toyCipher ("t3" ++ "_" ++ "a.jpg") "id" "t2") = some [2] ∧
    (store_file toyCipher defaultSettings false st3 f3cand "id" "t1" "t2" "t3" none).1 =
      .ok (generate_secure_filename toyCipher ("t3" ++ "_" ++ "a.jpg") "id" "t2",
        "sha256:" ++ sha256hex [9, 9], 2) ∧
    lookupFile (store_file toyCipher defaultSettings false st3 f3cand "id" "t1" "t2" "t3" none).2.localFiles
      (generate_secure_filename toyCipher ("t3" ++ "_" ++ "a.jpg") "id" "t2") = some [9, 9] := by
  refine ⟨?_, ?_, ?_⟩ <;> rfl

/-- C4 (amended): when the local write fails, the error is wrapped into
FileUploadException("Storage failed: ...") and propagates, but no cleanup
happens: the partially written bytes remain under the target name. -/
theorem C4_write_failure_keeps_partial (c : Cipher) (s : Settings) (s3r : Bool)
    (st : StorageState) (f : UploadFile) (file_id tok1 tok2 tok3 : String)
    (k : Nat) (msg : String)
    (hloc : (pyLower s.STORAGE_TYPE == "s3" && s3r) = false) :
    (store_file c s s3r st f file_id tok1 tok2 tok3 (some (k, msg))).1 =
      .error (.fileUploadException ("Storage failed: " ++ msg)) ∧
    lookupFile (store_file c s s3r st f file_id tok1 tok2 tok3 (some (k, msg))).2.localFiles
      (local_target_filename c st f file_id tok1 tok2 tok3) = some (f.content.take k) := by
  rw [store_file_local_fail c s s3r st f file_id tok1 tok2 tok3 k msg hloc]
  exact ⟨rfl, lookupFile_writeFile_self _ _ _⟩

def f4cand : UploadFile :=
  { filename := some "b.jpg", content_type := "image/jpeg", size := some 2,
    content := [9, 9] }

/-- C4 witness: a concrete failing write leaves the one-byte partial file. -/
theorem C4_write_failure_keeps_partial_witness :
    (store_file toyCipher defaultSettings false ⟨[], []⟩ f4cand "id" "t1" "t2" "t3"
        (some (1, "disk full"))).1 =
      .error (.fileUploadException ("Storage failed: " ++ "disk full")) ∧
    lookupFile (store_file toyCipher defaultSettings false ⟨[], []⟩ f4cand "id" "t1" "t2" "t3"
        (some (1, "disk full"))).2.localFiles
      (local_target_filename toyCipher ⟨[], []⟩ f4cand "id" "t1" "t2" "t3") =
      some (f4cand.content.take 1) :=
  C4_write_failure_keeps_partial toyCipher defaultSettings false ⟨[], []⟩ f4cand
    "id" "t1" "t2" "t3" 1 "disk full" (by decide)

/-- C4 counterexample: after the failing write the partial byte is still
present in the local store -- nothing was cleaned up before propagating. -/
theorem C4_counterexample :
    (store_file toyCipher defaultSettings false ⟨[], []⟩ f4cand "id" "t1" "t2" "t3"
        (some (1, "disk full"))).1 =
      .error (.fileUploadException "Storage failed: disk full") ∧
    lookupFile (store_file toyCipher defaultSettings false ⟨[], []⟩ f4cand "id" "t1" "t2" "t3"
        (some (1, "disk full"))).2.localFiles
      (first_stored_filename toyCipher f4cand "id" "t1") = some [9] := by
  refine ⟨?_, ?_⟩ <;> rfl

lemma string_append_left_cancel (x a b : String) (h : x ++ a = x ++ b) : a = b := by
  apply string_data_inj
  have := congrArg String.data h
  rw [string_data_append, string_data_append] at this
  exact List.append_cancel_left this

/-- C5: with the local backend active, verify_file_integrity is true for
the name and tagged hash a successful store returned; false once the
stored bytes are replaced by bytes with a different digest; and false
when the name cannot be read (absent file / read error). -/
theorem C5_verify_file_integrity (c : Cipher) (s : Settings) (s3r : Bool)
    (st st2 : StorageState) (f : UploadFile) (file_id tok1 tok2 tok3 : String)
    (n h : String) (sz : Nat) (newBytes : List Nat)
    (hloc : pyLower s.STORAGE_TYPE ≠ "s3")
    (hstore : store_file c s s3r st f file_id tok1 tok2 tok3 none = (.ok (n, h, sz), st2)) :
    verify_file_integrity (pyLower s.STORAGE_TYPE) st2 n h = true ∧
    (sha256hex newBytes ≠ sha256hex f.content →
      verify_file_integrity (pyLower s.STORAGE_TYPE)
        { st2 with localFiles := writeFile st2.localFiles n newBytes } n h = false) ∧
    (∀ m eh, lookupFile st.localFiles m = none →
      verify_file_integrity (pyLower s.STORAGE_TYPE) st m eh = false) := by
  have hbeq : (pyLower s.STORAGE_TYPE == "s3") = false := beq_eq_false_iff_ne.mpr hloc
  have hloc2 : (pyLower s.STORAGE_TYPE == "s3" && s3r) = false := by
    rw [hbeq]; rfl
  rw [store_file_local c s s3r st f file_id tok1 tok2 tok3 hloc2] at hstore
  simp only [Prod.mk.injEq, Except.ok.injEq] at hstore
  obtain ⟨⟨hn, hh, hsz⟩, hst2⟩ := hstore
  subst hn
  subst hh
  subst hst2
  refine ⟨?_, ?_, ?_⟩
  · simp only [verify_file_integrity, get_file_bytes, hbeq, Bool.false_eq_true,
      if_false, lookupFile_writeFile_self]
    exact beq_self_eq_true _
  · intro hne
    simp only [verify_file_integrity, get_file_bytes, hbeq, Bool.false_eq_true,
      if_false, lookupFile_writeFile_self]
    apply beq_eq_false_iff_ne.mpr
    intro heq
    exact hne (string_append_left_cancel "sha256:" _ _ heq)
  · intro m eh hnone
    simp only [verify_file_integrity, get_file_bytes, hbeq, Bool.false_eq_true,
      if_false, hnone]

def f5cand : UploadFile :=
  { filename := some "c.jpg", content_type := "image/jpeg", size := some 3,
    content := [1, 2, 3] }

/-- C5 witness: the integrity guarantees at a concrete store. -/
theorem C5_verify_file_integrity_witness :
    verify_file_integrity (pyLower defaultSettings.STORAGE_TYPE)
      ⟨writeFile [] (first_stored_filename toyCipher f5cand "id" "t1") [1, 2, 3], []⟩
      (first_stored_filename toyCipher f5cand "id" "t1")
      ("sha256:" ++ sha256hex [1, 2, 3]) = true ∧
    (sha256hex [9] ≠ sha256hex f5cand.content →
      verify_file_integrity (pyLower defaultSettings.STORAGE_TYPE)
        { (⟨writeFile [] (first_stored_filename toyCipher f5cand "id" "t1") [1, 2, 3], []⟩ : StorageState) with
          localFiles :=
            writeFile (writeFile [] (first_stored_filename toyCipher f5cand "id" "t1") [1, 2, 3])
              (first_stored_filename toyCipher f5cand "id" "t1") [9] }
        (first_stored_filename toyCipher f5cand "id" "t1")
        ("sha256:" ++ sha256hex [1, 2, 3]) = false) ∧
    (∀ m eh, lookupFile (⟨[], []⟩ : StorageState).localFiles m = none →
      verify_file_integrity (pyLower defaultSettings.STORAGE_TYPE) ⟨[], []⟩ m eh = false) :=
  C5_verify_file_integrity toyCipher defaultSettings false ⟨[], []⟩
    ⟨writeFile [] (first_stored_filename toyCipher f5cand "id" "t1") [1, 2, 3], []⟩
    f5cand "id" "t1" "t2" "t3"
    (first_stored_filename toyCipher f5cand "id" "t1")
    ("sha256:" ++ sha256hex [1, 2, 3]) 3 [9]
    (by decide) (by rfl)

/-- Sanity: externally replacing the stored bytes makes verification fail
on the concrete instance (the two digests really differ). -/
example :
    verify_file_integrity (pyLower defaultSettings.STORAGE_TYPE)
      ⟨writeFile (writeFile [] (first_stored_filename toyCipher f5cand "id" "t1") [1, 2, 3])
        (first_stored_filename toyCipher f5cand "id" "t1") [9], []⟩
      (first_stored_filename toyCipher f5cand "id" "t1")
      ("sha256:" ++ sha256hex [1, 2, 3]) = false := by rfl

def png_as_jpeg : UploadFile :=
  { filename := some "test.jpg", content_type := "image/jpeg", size := some 8,
    content := [0x89, 0x50, 0x4e, 0x47, 0x0d, 0x0a, 0x1a, 0x0a] }

def plain_text_file : UploadFile :=
  { filename := some "test.txt", content_type := "text/plain", size := some 20,
    content := asciiBytes "invalid file content" }

/-- C2 counterexample: a signature mismatch surfaces as FileTypeException
-- the same error kind (constructor) the MIME allow-list stage uses for
TypeNotAllowed, differing only in its message payload; there is no
distinct SignatureMismatch kind. -/
theorem C2_counterexample :
    validate_file defaultSettings png_as_jpeg =
      .error (.fileTypeException "File signature doesn't match declared type: image/jpeg"
        ["image/jpeg", "image/png", "application/pdf"]) ∧
    validate_file defaultSettings plain_text_file =
      .error (.fileTypeException "text/plain"
        ["image/jpeg", "image/png", "application/pdf"]) :=
  ⟨rfl, rfl⟩

/-- C2 (amended): a candidate declaring image/jpeg whose header is the
PNG magic number, passing the size, MIME, extension and pattern stages,
is rejected by the upload pipeline with FileTypeException carrying the
message "File signature doesn't match declared type: image/jpeg" (the
same exception kind as TypeNotAllowed, distinguished only by message),
and the storage state is returned untouched: store is never attempted. -/
theorem C2_signature_mismatch_no_store (c : Cipher) (s3r : Bool) (st : StorageState)
    (f : UploadFile) (file_id tok1 tok2 tok3 : String) (wres : Option (Nat × String))
    (hty : f.content_type = "image/jpeg")
    (hsize : ∀ sz, f.size = some sz → sz = 0 ∨ sz ≤ defaultSettings.MAX_FILE_SIZE)
    (hext : ∀ name, f.filename = some name → name ≠ "" →
      pyLower (pySuffix name) ∈ allowed_extensions)
    (hscan : suspicious_patterns.find?
      (fun q => bytesContains ((f.content.take 1024).map byteLower) (asciiBytes q)) = none)
    (hpng : listStartsWith (f.content.take 1024)
      [0x89, 0x50, 0x4e, 0x47, 0x0d, 0x0a, 0x1a, 0x0a] = true) :
    upload_file c defaultSettings s3r st f file_id tok1 tok2 tok3 wres =
      (.error (.fileTypeException
        ("File signature doesn't match declared type: " ++ "image/jpeg")
        defaultSettings.ALLOWED_FILE_TYPES), st) := by
  have hjpeg : listStartsWith (f.content.take 1024) [0xff, 0xd8, 0xff] = false := by
    rcases hh : f.content.take 1024 with _ | ⟨b, t⟩
    · rw [hh] at hpng
      exact absurd hpng (by decide)
    · rw [hh] at hpng
      have hb : b = 137 := by
        simp only [listStartsWith, Bool.and_eq_true, beq_iff_eq] at hpng
        exact hpng.1
      rw [hb]
      simp [listStartsWith]
  have h1 : _size_check defaultSettings f = .ok () := by
    cases hfs : f.size with
    | some sz =>
      have hc : ¬ (sz ≠ 0 ∧ sz > defaultSettings.MAX_FILE_SIZE) := by
        rcases hsize sz hfs with hz | hz <;> omega
      simp [_size_check, hfs, hc]
    | none => simp [_size_check, hfs]
  have h2 : _type_check defaultSettings f = .ok () := by
    unfold _type_check
    rw [hty]
    rfl
  have h3 : _extension_check f = .ok () := by
    unfold _extension_check
    cases hfn : f.filename with
    | some name =>
      by_cases hne : name = ""
      · simp [hne]
      · simp [hne, hext name hfn hne]
    | none => rfl
  have h4 : _scan_for_malware defaultSettings f =
      .error (.fileTypeException
        ("File signature doesn't match declared type: " ++ "image/jpeg")
        defaultSettings.ALLOWED_FILE_TYPES) := by
    unfold _scan_for_malware
    rw [hscan]
    unfold _validate_file_signature
    rw [hty]
    simp only [show signatures.find? (fun e => e.1 == "image/jpeg") =
      some ("image/jpeg", [[0xff, 0xd8, 0xff]]) from rfl]
    simp [hjpeg]
  have hval : validate_file defaultSettings f =
      .error (.fileTypeException
        ("File signature doesn't match declared type: " ++ "image/jpeg")
        defaultSettings.ALLOWED_FILE_TYPES) := by
    unfold validate_file
    rw [h1, fvSeq_ok, h2, fvSeq_ok, h3, fvSeq_ok, h4]
  simp only [upload_file, hval]

/-- C2 witness: the concrete PNG-headered candidate declared image/jpeg
is rejected with the signature-mismatch FileTypeException and leaves the
storage state unchanged. -/
theorem C2_signature_mismatch_no_store_witness :
    upload_file toyCipher defaultSettings false ⟨[], []⟩ png_as_jpeg
        "id" "t1" "t2" "t3" none =
      (.error (.fileTypeException
        ("File signature doesn't match declared type: " ++ "image/jpeg")
        defaultSettings.ALLOWED_FILE_TYPES), (⟨[], []⟩ : StorageState)) :=
  C2_signature_mismatch_no_store toyCipher false ⟨[], []⟩ png_as_jpeg
    "id" "t1" "t2" "t3" none rfl
    (by intro sz hsz; cases hsz; right; decide)
    (by intro name hn hne; cases hn; decide)
    (by rfl)
    (by rfl)

/-! ## C9: the 1000-byte JPEG store/retrieve scenario -/

def jpeg1000 : List Nat := 0xff :: 0xd8 :: 0xff :: List.replicate 997 0

def jpeg_file_1000 : UploadFile :=
  { filename := some "photo.jpg", content_type := "image/jpeg", size := some 1000,
    content := jpeg1000 }

/-- C9: the 1000-byte JPEG candidate with correct header, declared
image/jpeg, size under the 5MB default maximum, stores successfully on
the local backend: the opaque name is exactly the urlsafe-base64
ciphertext followed by ".jpg", the tagged hash is "sha256:" followed by
64 hex characters, the reported size is 1000, and retrieving the opaque
name returns the original bytes. -/
theorem C9_store_retrieve_scenario (c : Cipher) (file_id tok1 tok2 tok3 : String) :
    upload_file c defaultSettings false ⟨[], []⟩ jpeg_file_1000 file_id tok1 tok2 tok3 none =
      (.ok (urlsafe_b64encode (c.encrypt (file_id ++ "_" ++ "photo.jpg" ++ "_" ++ tok1)) ++ ".jpg",
        "sha256:" ++ sha256hex jpeg1000, 1000),
       ⟨writeFile []
          (urlsafe_b64encode (c.encrypt (file_id ++ "_" ++ "photo.jpg" ++ "_" ++ tok1)) ++ ".jpg")
          jpeg1000, []⟩) ∧
    (sha256hex jpeg1000).length = 64 ∧
    (∀ ch ∈ (sha256hex jpeg1000).data, ch ∈ hexDigits) ∧
    get_file_bytes (pyLower defaultSettings.STORAGE_TYPE)
      ⟨writeFile []
        (urlsafe_b64encode (c.encrypt (file_id ++ "_" ++ "photo.jpg" ++ "_" ++ tok1)) ++ ".jpg")
        jpeg1000, []⟩
      (urlsafe_b64encode (c.encrypt (file_id ++ "_" ++ "photo.jpg" ++ "_" ++ tok1)) ++ ".jpg") =
      some jpeg1000 := by
  have hval : validate_file defaultSettings jpeg_file_1000 = .ok () := by rfl
  have hfirst : first_stored_filename c jpeg_file_1000 file_id tok1 =
      urlsafe_b64encode (c.encrypt (file_id ++ "_" ++ "photo.jpg" ++ "_" ++ tok1)) ++ ".jpg" := by
    unfold first_stored_filename generate_secure_filename
    rw [show pyOr jpeg_file_1000.filename "unknown" = "photo.jpg" from rfl,
      show pyLower (pySuffix "photo.jpg") = ".jpg" from rfl]
  have htar : local_target_filename c ⟨[], []⟩ jpeg_file_1000 file_id tok1 tok2 tok3 =
      first_stored_filename c jpeg_file_1000 file_id tok1 := by
    unfold local_target_filename
    rw [show lookupFile (⟨[], []⟩ : StorageState).localFiles
      (first_stored_filename c jpeg_file_1000 file_id tok1) = none from rfl]
    rfl
  refine ⟨?_, sha256hex_length _, sha256hex_hex _, ?_⟩
  · show upload_file c defaultSettings false ⟨[], []⟩ jpeg_file_1000 file_id tok1 tok2 tok3 none = _
    simp only [upload_file, hval]
    rw [store_file_local c defaultSettings false ⟨[], []⟩ jpeg_file_1000
      file_id tok1 tok2 tok3 rfl, htar, hfirst]
    rfl
  · simp only [get_file_bytes,
      show (pyLower defaultSettings.STORAGE_TYPE == "s3") = false from rfl,
      Bool.false_eq_true, if_false]
    exact lookupFile_writeFile_self _ _ _

end FormVault
